import Mathlib

set_option maxHeartbeats 1000000

/-!
Shallow embedding of src/src/LibraryManager.ts of the H5P-Nodejs-library
repository (v0.7.0), together with a model of the library storage port
(ILibraryStorage) it consumes.  The storage backend is not part of the
repository sources, so its operations are modelled from the spec of the
Library Store Port; all orchestration logic (install decision, rollback,
consistency checking, patch detection, upgrade detection) is translated
directly from LibraryManager.ts.

Failures of the storage backend are modelled by a failure-injection record
(FailureModel): each mutating storage operation consults it and rejects with
a storage error when told to.  Every mutating storage call is also recorded
in a trace, so that frame conditions (no mutation happened) and ordering of
operations can be stated.
-/

/-- A relative path inside a library or a source directory, represented as
its slash-separated components (the last component is the file's basename). -/
abbrev LibPath := List String

/-- ILibraryName: identifies one line of a library, ignoring the patch
version. -/
structure LibName where
  machineName : String
  majorVersion : Nat
  minorVersion : Nat
deriving DecidableEq, Repr

/-- IFullLibraryName: a library line together with its patch version. -/
structure FullLibraryName where
  machineName : String
  majorVersion : Nat
  minorVersion : Nat
  patchVersion : Nat
deriving DecidableEq, Repr

/-- ILibraryMetadata: the manifest loaded from library.json.  Only the fields
interpreted by LibraryManager.ts are modelled; other manifest fields are
passed through opaquely and play no role in the manager's logic. -/
structure LibraryMetadata where
  machineName : String
  majorVersion : Nat
  minorVersion : Nat
  patchVersion : Nat
  runnable : Bool
  title : String
  preloadedJs : List LibPath
  preloadedCss : List LibPath
deriving DecidableEq, Repr

/-- The line identity of a full library name. -/
def FullLibraryName.libName (l : FullLibraryName) : LibName :=
  ⟨l.machineName, l.majorVersion, l.minorVersion⟩

/-- The line identity declared by a manifest. -/
def LibraryMetadata.libName (md : LibraryMetadata) : LibName :=
  ⟨md.machineName, md.majorVersion, md.minorVersion⟩

/-- The full identity declared by a manifest. -/
def LibraryMetadata.fullName (md : LibraryMetadata) : FullLibraryName :=
  ⟨md.machineName, md.majorVersion, md.minorVersion, md.patchVersion⟩

/-- One slot of the storage backend: persisted metadata, the set of stored
file paths, and the restricted flag passed at installation. -/
structure Slot where
  metadata : LibraryMetadata
  files : List LibPath
  restricted : Bool
deriving DecidableEq, Repr

/-- The line identity a slot is keyed by. -/
def Slot.libName (sl : Slot) : LibName := sl.metadata.libName

/-- The state of the storage backend: the list of installed slots. -/
structure Storage where
  slots : List Slot
deriving DecidableEq, Repr

/-- Errors surfaced by the manager: H5pError values raised by the manager
itself (error id plus the list of missing files where applicable), injected
storage-operation failures (carrying the operation name), and the failure of
reading the source manifest (fsExtra.readJSON rejecting because library.json
is missing or unparseable; the spec's taxonomy calls it ManifestUnreadable). -/
inductive Err where
  | h5pError (errorId : String) (files : List LibPath)
  | storageFailure (op : String)
  | manifestUnreadable
deriving DecidableEq, Repr

/-- A mutating storage call, as recorded in the trace. -/
inductive Call where
  | addLibrary (md : LibraryMetadata)
  | updateLibrary (md : LibraryMetadata)
  | clearFiles (lib : LibName)
  | addFile (lib : LibName) (path : LibPath)
  | deleteLibrary (lib : LibName)
deriving DecidableEq, Repr

/-- Result of a promise in the model: resolved with a value or rejected with
an error. -/
inductive Outcome (α : Type) where
  | ok (value : α)
  | error (e : Err)
deriving DecidableEq, Repr

/-- Failure injection for the mutating storage operations. -/
structure FailureModel where
  addLibraryFails : Bool
  updateLibraryFails : Bool
  clearFilesFails : Bool
  addFileFails : LibPath → Bool
  deleteLibraryFails : Bool

/-- A failure model in which every storage operation succeeds. -/
def FailureModel.none : FailureModel :=
  ⟨false, false, false, fun _ => false, false⟩

/-- The source directory handed to installFromDirectory: the outcome of
reading library.json (none when missing or unparseable) and the list of all
files physically present in the directory, as relative paths. -/
structure SourceDir where
  manifest : Option LibraryMetadata
  files : List LibPath

/-- Result of a stateful manager or storage operation: the outcome, the
storage state afterwards, and the trace of mutating storage calls made so
far. -/
structure MRes (α : Type) where
  result : Outcome α
  storage : Storage
  trace : List Call
deriving DecidableEq

/-- The result of installFromDirectory (ILibraryInstallResult). -/
inductive InstallResult where
  | installedNew (newVersion : FullLibraryName)
  | patched (newVersion : FullLibraryName) (oldVersion : FullLibraryName)
  | noChange
deriving DecidableEq, Repr

namespace LibraryStorage

/-- Find the slot holding the given line, if any. -/
def findSlot (s : Storage) (lib : LibName) : Option Slot :=
  s.slots.find? (fun sl => sl.libName = lib)

/-- Modelled from the spec: exists(identity) of the Library Store Port; a
line exists when a slot for it is installed. -/
def libraryExists (s : Storage) (lib : LibName) : Bool :=
  (findSlot s lib).isSome

/-- Modelled from the spec: getMetadata(identity), failing when the slot is
absent. -/
def getLibrary (s : Storage) (lib : LibName) : Outcome LibraryMetadata :=
  match findSlot s lib with
  | some sl => .ok sl.metadata
  | none => .error (.storageFailure "getLibrary")

/-- Modelled from the spec: fileExists(identity, relativePath). -/
def fileExists (s : Storage) (lib : LibName) (file : LibPath) : Bool :=
  match findSlot s lib with
  | some sl => file ∈ sl.files
  | none => false

/-- Modelled from the spec: getFileStream(identity, relativePath), failing
with NotFound when absent.  The stream's content is opaque in the model. -/
def getFileStream (s : Storage) (lib : LibName) (file : LibPath) :
    Outcome Unit :=
  if fileExists s lib file then .ok () else .error (.storageFailure "getFileStream")

/-- Modelled from the spec: addSlot(manifest, restricted) reserves a new
slot, persists the metadata and makes the identity visible atomically. -/
def addLibrary (fm : FailureModel) (s : Storage) (tr : List Call)
    (md : LibraryMetadata) (restricted : Bool) : MRes FullLibraryName :=
  let tr := tr ++ [Call.addLibrary md]
  if fm.addLibraryFails then ⟨.error (.storageFailure "addLibrary"), s, tr⟩
  else ⟨.ok md.fullName, ⟨s.slots ++ [⟨md, [], restricted⟩]⟩, tr⟩

/-- Modelled from the spec: updateMetadata(manifest) overwrites the metadata
of the existing slot with the same line identity. -/
def updateLibrary (fm : FailureModel) (s : Storage) (tr : List Call)
    (md : LibraryMetadata) : MRes Unit :=
  let tr := tr ++ [Call.updateLibrary md]
  if fm.updateLibraryFails then ⟨.error (.storageFailure "updateLibrary"), s, tr⟩
  else if libraryExists s md.libName then
    ⟨.ok (), ⟨s.slots.map (fun sl =>
        if sl.libName = md.libName then ⟨md, sl.files, sl.restricted⟩ else sl)⟩, tr⟩
  else ⟨.error (.storageFailure "updateLibrary-not-installed"), s, tr⟩

/-- Modelled from the spec: clearFiles(identity) removes all file blobs but
keeps the slot and its metadata. -/
def clearFiles (fm : FailureModel) (s : Storage) (tr : List Call)
    (lib : LibName) : MRes Unit :=
  let tr := tr ++ [Call.clearFiles lib]
  if fm.clearFilesFails then ⟨.error (.storageFailure "clearFiles"), s, tr⟩
  else if libraryExists s lib then
    ⟨.ok (), ⟨s.slots.map (fun sl =>
        if sl.libName = lib then ⟨sl.metadata, [], sl.restricted⟩ else sl)⟩, tr⟩
  else ⟨.error (.storageFailure "clearFiles-not-installed"), s, tr⟩

/-- Modelled from the spec: addFile(identity, relativePath, stream) writes
one file into the slot. -/
def addFile (fm : FailureModel) (s : Storage) (tr : List Call)
    (lib : LibName) (file : LibPath) : MRes Unit :=
  let tr := tr ++ [Call.addFile lib file]
  if fm.addFileFails file then ⟨.error (.storageFailure "addFile"), s, tr⟩
  else if libraryExists s lib then
    ⟨.ok (), ⟨s.slots.map (fun sl =>
        if sl.libName = lib then
          ⟨sl.metadata, if file ∈ sl.files then sl.files else sl.files ++ [file],
            sl.restricted⟩
        else sl)⟩, tr⟩
  else ⟨.error (.storageFailure "addFile-not-installed"), s, tr⟩

/-- Modelled from the spec: deleteSlot(identity) removes the metadata and all
files of the identity; idempotent. -/
def deleteLibrary (fm : FailureModel) (s : Storage) (tr : List Call)
    (lib : LibName) : MRes Unit :=
  let tr := tr ++ [Call.deleteLibrary lib]
  if fm.deleteLibraryFails then ⟨.error (.storageFailure "deleteLibrary"), s, tr⟩
  else ⟨.ok (), ⟨s.slots.filter (fun sl => ¬ sl.libName = lib)⟩, tr⟩

end LibraryStorage

/-- Modelled from the spec: the Version Comparator of InstalledLibrary
(compareVersions), whose source file is not part of src/; it orders strictly
by majorVersion, then minorVersion, then patchVersion, returning
negative/zero/positive (here an Ordering). -/
def compareVersions (a b : FullLibraryName) : Ordering :=
  if a.majorVersion < b.majorVersion then .lt
  else if b.majorVersion < a.majorVersion then .gt
  else if a.minorVersion < b.minorVersion then .lt
  else if b.minorVersion < a.minorVersion then .gt
  else if a.patchVersion < b.patchVersion then .lt
  else if b.patchVersion < a.patchVersion then .gt
  else .eq

/-- The sorting relation induced by the version comparator: a sorts no later
than b. -/
def versionLE (a b : FullLibraryName) : Prop :=
  compareVersions a b ≠ Ordering.gt

instance : DecidableRel versionLE := fun a b =>
  if h : compareVersions a b = Ordering.gt then .isFalse (by simpa [versionLE] using h)
  else .isTrue h

namespace LibraryManager

/-- The installed records for one machine name, as produced by
listInstalledLibraries: every slot whose metadata carries the machine name,
hydrated into a full library name (identity plus patchVersion). -/
def installedForMachine (s : Storage) (machineName : String) :
    List FullLibraryName :=
  (s.slots.filter (fun sl => sl.metadata.machineName = machineName)).map
    (fun sl => sl.metadata.fullName)

/-- The installed records for one machine name, sorted ascending by the
version comparator, as listInstalledLibraries and libraryHasUpgrade sort
them. -/
def sortedInstalledForMachine (s : Storage) (machineName : String) :
    List FullLibraryName :=
  (installedForMachine s machineName).insertionSort versionLE

/-- Translation of LibraryManager.isPatchedLibrary: scan the installed
records of the manifest's machine name for the one sharing majorVersion and
minorVersion; return its full name when its patchVersion is strictly below
the manifest's, and nothing otherwise (the loop breaks at the first match). -/
def isPatchedLibrary (s : Storage) (library : LibraryMetadata) :
    Option FullLibraryName :=
  match (sortedInstalledForMachine s library.machineName).find?
      (fun lib => lib.majorVersion = library.majorVersion ∧
        lib.minorVersion = library.minorVersion) with
  | some lib =>
      if lib.patchVersion < library.patchVersion then
        some ⟨lib.machineName, lib.majorVersion, lib.minorVersion, lib.patchVersion⟩
      else none
  | none => none

/-- Translation of LibraryManager.libraryHasUpgrade: sort all installed
records of the machine name by the version comparator, take the highest, and
return true exactly when it compares strictly below the candidate. -/
def libraryHasUpgrade (s : Storage) (library : FullLibraryName) : Bool :=
  match (sortedInstalledForMachine s library.machineName).getLast? with
  | none => false
  | some highestLocalLibVersion =>
      compareVersions highestLocalLibVersion library = Ordering.lt

/-- Translation of LibraryManager.getLibrary: the storage promise is
returned from inside the try WITHOUT await, so it is adopted by the caller
only after the try/catch has already exited: an asynchronous rejection of
the storage read (the not-installed case) is not caught and propagates to
the caller; the catch-and-return-undefined branch is reachable only for a
synchronous throw, which the storage port's promise-returning read has
none of, so every storage outcome passes through unchanged. -/
def getLibrary (s : Storage) (library : LibName) : Outcome LibraryMetadata :=
  LibraryStorage.getLibrary s library

/-- Translation of LibraryManager.getJsonFile: stream the file's contents
and parse them; the parsed value is opaque in the model, so only the
success/failure of obtaining the stream is kept. -/
def getJsonFile (s : Storage) (library : LibName) (file : LibPath) :
    Outcome Unit :=
  LibraryStorage.getFileStream s library file

/-- Translation of LibraryManager.getLanguage: read
language/(language).json and downgrade any failure to the null sentinel. -/
def getLanguage (s : Storage) (library : LibName) (language : String) :
    Option Unit :=
  match getJsonFile s library ["language", language ++ ".json"] with
  | .ok v => some v
  | .error _ => none

/-- Translation of LibraryManager.checkFiles: evaluate fileExists for every
required file, keep all the missing ones, and fail with the H5pError
library-consistency-check-file-missing carrying the complete missing list
when there is any. -/
def checkFiles (s : Storage) (library : LibName)
    (requiredFiles : List LibPath) : Outcome Bool :=
  let missingFiles := requiredFiles.filter
    (fun file => ¬ LibraryStorage.fileExists s library file)
  if missingFiles.length > 0 then
    .error (.h5pError "library-consistency-check-file-missing" missingFiles)
  else .ok true

/-- Translation of LibraryManager.checkConsistency: fail when the library is
not installed or its metadata is unreadable, then check the preloadedJs file
list and afterwards the preloadedCss file list. -/
def checkConsistency (s : Storage) (library : LibName) : Outcome Bool :=
  if ¬ LibraryStorage.libraryExists s library then
    .error (.h5pError "library-consistency-check-not-installed" [])
  else
    match LibraryStorage.getLibrary s library with
    | .error _ =>
        .error (.h5pError "library-consistency-check-library-json-unreadable" [])
    | .ok metadata =>
        match checkFiles s library metadata.preloadedJs with
        | .error e => .error e
        | .ok _ =>
            match checkFiles s library metadata.preloadedCss with
            | .error e => .error e
            | .ok _ => .ok true

/-- Whether a component of a relative path is a hidden (dot-leading) name. -/
def hiddenComponent (c : String) : Bool :=
  match c.data with
  | [] => false
  | ch :: _ => ch = '.'

/-- Matching of the glob pattern (fromDirectory)/**/*.* used by
copyLibraryFiles, with node-glob's default options: no path component may be
hidden and the basename must contain a dot. -/
def globMatch (p : LibPath) : Bool :=
  p.all (fun c => ¬ hiddenComponent c) &&
  match p.getLast? with
  | none => false
  | some base => '.' ∈ base.data

/-- One pass of the copy loop of copyLibraryFiles: each globbed file whose
local path is library.json is skipped, every other one is streamed into the
slot with addFile; the first rejection aborts the remaining copies. -/
def copyFilesList (fm : FailureModel) (lib : LibName) :
    List LibPath → Storage → List Call → MRes Unit
  | [], s, tr => ⟨.ok (), s, tr⟩
  | f :: rest, s, tr =>
      if f = ["library.json"] then copyFilesList fm lib rest s tr
      else
        match LibraryStorage.addFile fm s tr lib f with
        | ⟨.error e, s1, tr1⟩ => ⟨.error e, s1, tr1⟩
        | ⟨.ok _, s1, tr1⟩ => copyFilesList fm lib rest s1 tr1

/-- Translation of LibraryManager.copyLibraryFiles: glob every file of the
source directory matching **/*.* and copy each into the slot, except the
manifest file library.json at the root. -/
def copyLibraryFiles (fm : FailureModel) (s : Storage) (tr : List Call)
    (src : SourceDir) (lib : LibName) : MRes Unit :=
  copyFilesList fm lib (src.files.filter globMatch) s tr

/-- The catch block shared by installLibrary and updateLibrary: await
deleteLibrary, then rethrow the original error.  When deleteLibrary itself
rejects, its error propagates out of the catch block instead, replacing the
original one (plain JavaScript try/catch semantics). -/
def rollbackRethrow {α : Type} (fm : FailureModel) (lib : LibName) (e : Err)
    (s : Storage) (tr : List Call) : MRes α :=
  match LibraryStorage.deleteLibrary fm s tr lib with
  | ⟨.error e2, s1, tr1⟩ => ⟨.error e2, s1, tr1⟩
  | ⟨.ok _, s1, tr1⟩ => ⟨.error e, s1, tr1⟩

/-- Translation of LibraryManager.installLibrary: addLibrary, then (inside
the try block) copyLibraryFiles and checkConsistency; on a failure of either,
delete the library and rethrow. -/
def installLibrary (fm : FailureModel) (src : SourceDir)
    (libraryMetadata : LibraryMetadata) (restricted : Bool) (s : Storage)
    (tr : List Call) : MRes FullLibraryName :=
  match LibraryStorage.addLibrary fm s tr libraryMetadata restricted with
  | ⟨.error e, s1, tr1⟩ => ⟨.error e, s1, tr1⟩
  | ⟨.ok newLibraryInfo, s1, tr1⟩ =>
      match copyLibraryFiles fm s1 tr1 src libraryMetadata.libName with
      | ⟨.error e, s2, tr2⟩ => rollbackRethrow fm libraryMetadata.libName e s2 tr2
      | ⟨.ok _, s2, tr2⟩ =>
          match checkConsistency s2 libraryMetadata.libName with
          | .error e => rollbackRethrow fm libraryMetadata.libName e s2 tr2
          | .ok _ => ⟨.ok newLibraryInfo, s2, tr2⟩

/-- Translation of LibraryManager.updateLibrary: inside one try block,
updateLibrary (metadata), clearFiles, copyLibraryFiles, checkConsistency; on
any failure delete the library and rethrow. -/
def updateLibrary (fm : FailureModel) (newLibraryMetadata : LibraryMetadata)
    (filesDirectory : SourceDir) (s : Storage) (tr : List Call) : MRes Unit :=
  match LibraryStorage.updateLibrary fm s tr newLibraryMetadata with
  | ⟨.error e, s1, tr1⟩ => rollbackRethrow fm newLibraryMetadata.libName e s1 tr1
  | ⟨.ok _, s1, tr1⟩ =>
      match LibraryStorage.clearFiles fm s1 tr1 newLibraryMetadata.libName with
      | ⟨.error e, s2, tr2⟩ => rollbackRethrow fm newLibraryMetadata.libName e s2 tr2
      | ⟨.ok _, s2, tr2⟩ =>
          match copyLibraryFiles fm s2 tr2 filesDirectory newLibraryMetadata.libName with
          | ⟨.error e, s3, tr3⟩ => rollbackRethrow fm newLibraryMetadata.libName e s3 tr3
          | ⟨.ok _, s3, tr3⟩ =>
              match checkConsistency s3 newLibraryMetadata.libName with
              | .error e => rollbackRethrow fm newLibraryMetadata.libName e s3 tr3
              | .ok _ => ⟨.ok (), s3, tr3⟩

/-- Translation of LibraryManager.installFromDirectory: read the manifest
(failing when it is missing or unparseable), then decide between the patch
update, the no-change and the fresh install paths. -/
def installFromDirectory (fm : FailureModel) (src : SourceDir)
    (restricted : Bool) (s : Storage) : MRes InstallResult :=
  match src.manifest with
  | none => ⟨.error .manifestUnreadable, s, []⟩
  | some newLibraryMetadata =>
      let newVersion := newLibraryMetadata.fullName
      if LibraryStorage.libraryExists s newLibraryMetadata.libName then
        match isPatchedLibrary s newLibraryMetadata with
        | some oldVersion =>
            match updateLibrary fm newLibraryMetadata src s [] with
            | ⟨.error e, s1, tr1⟩ => ⟨.error e, s1, tr1⟩
            | ⟨.ok _, s1, tr1⟩ => ⟨.ok (.patched newVersion oldVersion), s1, tr1⟩
        | none => ⟨.ok .noChange, s, []⟩
      else
        match installLibrary fm src newLibraryMetadata restricted s [] with
        | ⟨.error e, s1, tr1⟩ => ⟨.error e, s1, tr1⟩
        | ⟨.ok _, s1, tr1⟩ => ⟨.ok (.installedNew newVersion), s1, tr1⟩

end LibraryManager

/-- Characterization of the comparator returning gt. -/
theorem compareVersions_eq_gt_iff (a b : FullLibraryName) :
    compareVersions a b = Ordering.gt ↔
      (b.majorVersion < a.majorVersion ∨
        (a.majorVersion = b.majorVersion ∧
          (b.minorVersion < a.minorVersion ∨
            (a.minorVersion = b.minorVersion ∧
              b.patchVersion < a.patchVersion)))) := by
  unfold compareVersions
  split_ifs <;> simp_all <;> omega

/-- Characterization of the comparator returning lt. -/
theorem compareVersions_eq_lt_iff (a b : FullLibraryName) :
    compareVersions a b = Ordering.lt ↔
      (a.majorVersion < b.majorVersion ∨
        (a.majorVersion = b.majorVersion ∧
          (a.minorVersion < b.minorVersion ∨
            (a.minorVersion = b.minorVersion ∧
              a.patchVersion < b.patchVersion)))) := by
  unfold compareVersions
  split_ifs <;> simp_all <;> omega

/-- Unfolding of the sorting relation. -/
theorem versionLE_iff (a b : FullLibraryName) :
    versionLE a b ↔
      ¬ (b.majorVersion < a.majorVersion ∨
        (a.majorVersion = b.majorVersion ∧
          (b.minorVersion < a.minorVersion ∨
            (a.minorVersion = b.minorVersion ∧
              b.patchVersion < a.patchVersion)))) := by
  unfold versionLE
  rw [← compareVersions_eq_gt_iff a b]

instance : IsTotal FullLibraryName versionLE :=
  ⟨by
    intro a b
    rw [versionLE_iff, versionLE_iff]
    omega⟩

instance : IsTrans FullLibraryName versionLE :=
  ⟨by
    intro a b c hab hbc
    rw [versionLE_iff] at hab hbc ⊢
    omega⟩

/-- The sorting relation is reflexive. -/
theorem versionLE_refl (a : FullLibraryName) : versionLE a a := by
  rw [versionLE_iff]; omega

/-- Below-or-equal followed by strictly-below is strictly-below. -/
theorem compareVersions_lt_of_le_of_lt {a b c : FullLibraryName}
    (hab : versionLE a b) (hbc : compareVersions b c = Ordering.lt) :
    compareVersions a c = Ordering.lt := by
  rw [versionLE_iff] at hab
  rw [compareVersions_eq_lt_iff] at hbc ⊢
  omega

/-- The last element of a list with getLast? defined is a member. -/
theorem memOfGetLast {α : Type} :
    ∀ (l : List α) (m : α), l.getLast? = some m → m ∈ l
  | [a], m, hm => by
      simp only [List.getLast?_singleton, Option.some.injEq] at hm
      simp [hm]
  | a :: b :: t, m, hm => by
      rw [List.getLast?_cons_cons] at hm
      exact List.mem_cons.mpr (Or.inr (memOfGetLast (b :: t) m hm))

/-- In a list sorted by the version relation, every member sorts no later
than the last element. -/
theorem sortedGetLastMax :
    ∀ (l : List FullLibraryName), l.Sorted versionLE →
      ∀ m, l.getLast? = some m → ∀ x ∈ l, versionLE x m
  | [a], _, m, hm, x, hx => by
      simp only [List.getLast?_singleton, Option.some.injEq] at hm
      simp only [List.mem_singleton] at hx
      subst hm hx
      exact versionLE_refl x
  | a :: b :: t, hs, m, hm, x, hx => by
      rw [List.getLast?_cons_cons] at hm
      obtain ⟨ha, hs'⟩ := List.sorted_cons.mp hs
      rcases List.mem_cons.mp hx with rfl | hx'
      · exact ha m (memOfGetLast (b :: t) m hm)
      · exact sortedGetLastMax (b :: t) hs' m hm x hx'

/-- C4 (amended): libraryHasUpgrade returns true exactly when at least one
record is installed for the candidate's machine name and every installed
record for that machine name (across all major/minor lines) compares
strictly below the candidate by the version comparator; equivalently, the
maximum installed version is strictly less than the candidate, not
greater-or-equal as the original claim stated. -/
theorem libraryHasUpgrade_eq_true_iff (s : Storage) (cand : FullLibraryName) :
    LibraryManager.libraryHasUpgrade s cand = true ↔
      (LibraryManager.installedForMachine s cand.machineName ≠ [] ∧
        ∀ r ∈ LibraryManager.installedForMachine s cand.machineName,
          compareVersions r cand = Ordering.lt) := by
  unfold LibraryManager.libraryHasUpgrade LibraryManager.sortedInstalledForMachine
  have hperm := List.perm_insertionSort versionLE
      (LibraryManager.installedForMachine s cand.machineName)
  have hsorted := List.sorted_insertionSort versionLE
      (LibraryManager.installedForMachine s cand.machineName)
  rcases hm : (List.insertionSort versionLE
      (LibraryManager.installedForMachine s cand.machineName)).getLast? with _ | m
  · have hnil := List.getLast?_eq_none_iff.mp hm
    rw [hnil] at hperm
    have hLnil := hperm.symm.eq_nil
    simp only [hm]
    simp [hLnil]
  · simp only [hm]
    constructor
    · intro h
      have hlt : compareVersions m cand = Ordering.lt := of_decide_eq_true h
      constructor
      · intro hLnil
        rw [hLnil] at hm
        simp [List.insertionSort] at hm
      · intro r hr
        have hrS : r ∈ List.insertionSort versionLE
            (LibraryManager.installedForMachine s cand.machineName) :=
          (List.mem_insertionSort versionLE).mpr hr
        exact compareVersions_lt_of_le_of_lt
          (sortedGetLastMax _ hsorted m hm r hrS) hlt
    · rintro ⟨_, hall⟩
      have hmem : m ∈ LibraryManager.installedForMachine s cand.machineName :=
        (List.mem_insertionSort versionLE).mp
          (memOfGetLast _ m hm)
      exact decide_eq_true (hall m hmem)

/-- A storage holding exactly one installed library, A 2.0.0. -/
def storageWithA200 : Storage :=
  ⟨[⟨⟨"A", 2, 0, 0, true, "A", [], []⟩, [], false⟩]⟩

/-- The candidate identity A 1.0.5. -/
def candidateA105 : FullLibraryName := ⟨"A", 1, 0, 5⟩

/-- C4 counterexample: with A 2.0.0 installed, the maximum installed record
for machine name A compares greater than the candidate A 1.0.5, so the claim
predicts libraryHasUpgrade = true; the code returns false. -/
theorem libraryHasUpgrade_claim_counterexample :
    LibraryManager.installedForMachine storageWithA200 "A" = [⟨"A", 2, 0, 0⟩] ∧
    compareVersions ⟨"A", 2, 0, 0⟩ candidateA105 = Ordering.gt ∧
    LibraryManager.libraryHasUpgrade storageWithA200 candidateA105 = false := by
  decide

/-- Existence of a line in storage means a slot with that line is
installed. -/
theorem libraryExists_iff (s : Storage) (lib : LibName) :
    LibraryStorage.libraryExists s lib = true ↔
      ∃ sl ∈ s.slots, sl.libName = lib := by
  unfold LibraryStorage.libraryExists LibraryStorage.findSlot
  rw [List.find?_isSome]
  simp

/-- A line no slot carries does not exist in storage. -/
theorem libraryExists_false_of_not_mem (s : Storage) (lib : LibName)
    (h : ∀ sl ∈ s.slots, sl.libName ≠ lib) :
    LibraryStorage.libraryExists s lib = false := by
  cases hb : LibraryStorage.libraryExists s lib
  · rfl
  · obtain ⟨sl, hmem, hl⟩ := (libraryExists_iff s lib).mp hb
    exact absurd hl (h sl hmem)

/-- A line some slot carries exists in storage. -/
theorem libraryExists_true_of_mem {s : Storage} {lib : LibName} {sl : Slot}
    (hm : sl ∈ s.slots) (h : sl.libName = lib) :
    LibraryStorage.libraryExists s lib = true :=
  (libraryExists_iff s lib).mpr ⟨sl, hm, h⟩

/-- After filtering out every slot of a line, the line no longer exists. -/
theorem libraryExists_delete_self (s : Storage) (lib : LibName) :
    LibraryStorage.libraryExists
      ⟨s.slots.filter (fun sl => ¬ sl.libName = lib)⟩ lib = false := by
  apply libraryExists_false_of_not_mem
  intro sl hsl
  have h2 := (List.mem_filter.mp hsl).2
  simpa using h2

/-- Behaviour of the rollback catch block when deleteLibrary succeeds: the
slot of the line is removed, the delete call is recorded, and the original
error is rethrown. -/
theorem rollbackRethrow_delete_ok {α : Type} (fm : FailureModel)
    (lib : LibName) (e : Err) (s : Storage) (tr : List Call)
    (h : fm.deleteLibraryFails = false) :
    (LibraryManager.rollbackRethrow fm lib e s tr : MRes α) =
      ⟨.error e, ⟨s.slots.filter (fun sl => ¬ sl.libName = lib)⟩,
        tr ++ [Call.deleteLibrary lib]⟩ := by
  unfold LibraryManager.rollbackRethrow LibraryStorage.deleteLibrary
  simp [h]

/-- Behaviour of the rollback catch block when deleteLibrary itself rejects:
its error propagates out of the catch block, replacing the original error,
and the storage state is left as it was. -/
theorem rollbackRethrow_delete_fails {α : Type} (fm : FailureModel)
    (lib : LibName) (e : Err) (s : Storage) (tr : List Call)
    (h : fm.deleteLibraryFails = true) :
    (LibraryManager.rollbackRethrow fm lib e s tr : MRes α) =
      ⟨.error (.storageFailure "deleteLibrary"), s,
        tr ++ [Call.deleteLibrary lib]⟩ := by
  unfold LibraryManager.rollbackRethrow LibraryStorage.deleteLibrary
  simp [h]

/-- Summary of the rollback catch block under a succeeding deleteLibrary:
the original error is rethrown, the line is gone, the delete was called. -/
theorem rollbackRethrow_spec {α : Type} (fm : FailureModel) (lib : LibName)
    (e : Err) (s : Storage) (tr : List Call)
    (h : fm.deleteLibraryFails = false) :
    (LibraryManager.rollbackRethrow fm lib e s tr : MRes α).result = .error e ∧
    LibraryStorage.libraryExists
      (LibraryManager.rollbackRethrow fm lib e s tr : MRes α).storage lib = false ∧
    Call.deleteLibrary lib ∈
      (LibraryManager.rollbackRethrow fm lib e s tr : MRes α).trace := by
  rw [rollbackRethrow_delete_ok fm lib e s tr h]
  refine ⟨rfl, libraryExists_delete_self s lib, by simp⟩

/-- Result characterization of installLibrary when addLibrary and
deleteLibrary do not fail on their own: a resolved call returns the new
identity, and a rejected call has deleted the attempted line and recorded
the delete call before rethrowing. -/
theorem installLibrary_spec (fm : FailureModel) (src : SourceDir)
    (md : LibraryMetadata) (restricted : Bool) (s : Storage) (tr : List Call)
    (hadd : fm.addLibraryFails = false) (hdel : fm.deleteLibraryFails = false) :
    (∀ v, (LibraryManager.installLibrary fm src md restricted s tr).result = .ok v →
        v = md.fullName) ∧
    (∀ e, (LibraryManager.installLibrary fm src md restricted s tr).result = .error e →
        LibraryStorage.libraryExists
          (LibraryManager.installLibrary fm src md restricted s tr).storage
          md.libName = false ∧
        Call.deleteLibrary md.libName ∈
          (LibraryManager.installLibrary fm src md restricted s tr).trace) := by
  unfold LibraryManager.installLibrary
  rw [show LibraryStorage.addLibrary fm s tr md restricted =
      ⟨.ok md.fullName, ⟨s.slots ++ [⟨md, [], restricted⟩]⟩,
        tr ++ [Call.addLibrary md]⟩ from by
    unfold LibraryStorage.addLibrary
    simp [hadd]]
  rcases hcp : LibraryManager.copyLibraryFiles fm
      ⟨s.slots ++ [⟨md, [], restricted⟩]⟩ (tr ++ [Call.addLibrary md]) src
      md.libName with ⟨cr, s2, tr2⟩
  cases cr with
  | error e' =>
      simp only [hcp]
      rw [rollbackRethrow_delete_ok fm md.libName e' s2 tr2 hdel]
      constructor
      · intro v hv
        simp at hv
      · intro e he
        exact ⟨libraryExists_delete_self s2 md.libName, by simp⟩
  | ok u =>
      simp only [hcp]
      cases hcc : LibraryManager.checkConsistency s2 md.libName with
      | error e' =>
          simp only [rollbackRethrow_delete_ok fm md.libName e' s2 tr2 hdel]
          constructor
          · intro v hv
            simp at hv
          · intro e he
            exact ⟨libraryExists_delete_self s2 md.libName, by simp⟩
      | ok b =>
          refine ⟨fun v hv => ?_, fun e he => ?_⟩
          · simpa using hv.symm
          · simp at he

/-- C1: for a fresh install (no installed slot shares the manifest's
machineName/majorVersion/minorVersion), when addSlot and deleteSlot do not
fail on their own, a resolved installFromDirectory returns the new outcome
carrying the new identity, and a rejected one (file copy or consistency
failure) has invoked deleteSlot and left the attempted line unobservable to
existence queries before the failure was rethrown. -/
theorem installFromDirectory_fresh_spec (fm : FailureModel) (src : SourceDir)
    (md : LibraryMetadata) (restricted : Bool) (s : Storage)
    (hman : src.manifest = some md)
    (hfresh : ∀ sl ∈ s.slots, sl.libName ≠ md.libName)
    (hadd : fm.addLibraryFails = false)
    (hdel : fm.deleteLibraryFails = false) :
    (∀ v, (LibraryManager.installFromDirectory fm src restricted s).result = .ok v →
        v = .installedNew md.fullName) ∧
    (∀ e, (LibraryManager.installFromDirectory fm src restricted s).result = .error e →
        LibraryStorage.libraryExists
          (LibraryManager.installFromDirectory fm src restricted s).storage
          md.libName = false ∧
        Call.deleteLibrary md.libName ∈
          (LibraryManager.installFromDirectory fm src restricted s).trace) := by
  have hspec := installLibrary_spec fm src md restricted s [] hadd hdel
  unfold LibraryManager.installFromDirectory
  simp only [hman, libraryExists_false_of_not_mem s md.libName hfresh,
    Bool.false_eq_true, if_false]
  rcases hil : LibraryManager.installLibrary fm src md restricted s []
    with ⟨ir, s1, tr1⟩
  rw [hil] at hspec
  simp only [] at hspec
  cases ir with
  | error e' =>
      simp only [hil]
      exact ⟨fun v hv => by simp at hv, fun e he => by
        have := hspec.2 e' rfl
        exact this⟩
  | ok v' =>
      simp only [hil]
      exact ⟨fun v hv => by simpa using hv.symm, fun e he => by simp at he⟩

/-- A minimal manifest for machine name A, version 1.0.0, declaring no
preloaded files. -/
def mdSimpleA100 : LibraryMetadata := ⟨"A", 1, 0, 0, true, "A", [], []⟩

/-- A source directory holding that manifest and one script file. -/
def srcSimpleA100 : SourceDir := ⟨some mdSimpleA100, [["a.js"], ["library.json"]]⟩

/-- Witness for C1 at a concrete fresh install into an empty storage. -/
theorem installFromDirectory_fresh_spec_witness :
    (∀ v, (LibraryManager.installFromDirectory FailureModel.none srcSimpleA100
        false ⟨[]⟩).result = .ok v → v = .installedNew mdSimpleA100.fullName) ∧
    (∀ e, (LibraryManager.installFromDirectory FailureModel.none srcSimpleA100
        false ⟨[]⟩).result = .error e →
        LibraryStorage.libraryExists
          (LibraryManager.installFromDirectory FailureModel.none srcSimpleA100
            false ⟨[]⟩).storage mdSimpleA100.libName = false ∧
        Call.deleteLibrary mdSimpleA100.libName ∈
          (LibraryManager.installFromDirectory FailureModel.none srcSimpleA100
            false ⟨[]⟩).trace) :=
  installFromDirectory_fresh_spec FailureModel.none srcSimpleA100 mdSimpleA100
    false ⟨[]⟩ rfl (by simp) rfl rfl

/-- C8: when the source manifest is missing or unparseable, the install
fails with the ManifestUnreadable error of the taxonomy, performs no mutating
storage call, and leaves the storage state untouched. -/
theorem installFromDirectory_manifest_unreadable (fm : FailureModel)
    (src : SourceDir) (restricted : Bool) (s : Storage)
    (h : src.manifest = none) :
    LibraryManager.installFromDirectory fm src restricted s =
      ⟨.error .manifestUnreadable, s, []⟩ := by
  unfold LibraryManager.installFromDirectory
  rw [h]

/-- Witness for C8 at a concrete unreadable manifest. -/
theorem installFromDirectory_manifest_unreadable_witness :
    LibraryManager.installFromDirectory FailureModel.none ⟨none, [["a.js"]]⟩
        false ⟨[]⟩ = ⟨.error .manifestUnreadable, ⟨[]⟩, []⟩ :=
  installFromDirectory_manifest_unreadable FailureModel.none ⟨none, [["a.js"]]⟩
    false ⟨[]⟩ rfl

/-- C7: evaluation at the failing input (library A 1.0 not installed).
The getLibrary half of the claim is right and the code is wrong: getLibrary
returns the storage promise without await inside its try, so the
not-installed rejection escapes the catch and the call rejects with the
storage failure instead of resolving to undefined — contradicting the
method's own doc comment (the decoded JSON data or undefined if library is
not installed) and the unreachable catch branch that logs not-installed and
returns undefined.  The getLanguage half behaves as the claim states: it
awaits, so the missing language file is downgraded to the null sentinel. -/
theorem advisory_reads_divergence :
    LibraryManager.getLibrary ⟨[]⟩ ⟨"A", 1, 0⟩ =
      .error (.storageFailure "getLibrary") ∧
    LibraryManager.getLanguage ⟨[]⟩ ⟨"A", 1, 0⟩ "en" = none := by
  decide

/-- Well-formedness of the storage (invariant I1 of the spec): at most one
slot exists per (machineName, majorVersion, minorVersion) line. -/
def WellFormed (s : Storage) : Prop :=
  (s.slots.map Slot.libName).Nodup

/-- In a well-formed storage, slots sharing a line are equal. -/
theorem wellFormed_unique {s : Storage} {a b : Slot} (hw : WellFormed s)
    (ha : a ∈ s.slots) (hb : b ∈ s.slots) (h : a.libName = b.libName) :
    a = b :=
  List.inj_on_of_nodup_map hw ha hb h

/-- Characterization of isPatchedLibrary in a well-formed storage holding a
slot of the manifest's line: it answers that slot's identity exactly when
the installed patchVersion is strictly below the manifest's. -/
theorem isPatchedLibrary_eq {s : Storage} {md : LibraryMetadata} {sl : Slot}
    (hw : WellFormed s) (hsl : sl ∈ s.slots)
    (hname : sl.metadata.machineName = md.machineName)
    (hmaj : sl.metadata.majorVersion = md.majorVersion)
    (hmin : sl.metadata.minorVersion = md.minorVersion) :
    LibraryManager.isPatchedLibrary s md =
      (if sl.metadata.patchVersion < md.patchVersion
        then some sl.metadata.fullName else none) := by
  unfold LibraryManager.isPatchedLibrary
  have hmemL : sl.metadata.fullName ∈
      LibraryManager.installedForMachine s md.machineName := by
    unfold LibraryManager.installedForMachine
    exact List.mem_map.mpr ⟨sl, List.mem_filter.mpr ⟨hsl, by simp [hname]⟩, rfl⟩
  have hmemS : sl.metadata.fullName ∈
      LibraryManager.sortedInstalledForMachine s md.machineName := by
    unfold LibraryManager.sortedInstalledForMachine
    exact (List.mem_insertionSort versionLE).mpr hmemL
  rcases hf : (LibraryManager.sortedInstalledForMachine s md.machineName).find?
      (fun lib => lib.majorVersion = md.majorVersion ∧
        lib.minorVersion = md.minorVersion) with _ | r
  · exfalso
    apply List.find?_eq_none.mp hf sl.metadata.fullName hmemS
    simp [LibraryMetadata.fullName, hmaj, hmin]
  · have hpr := List.find?_some hf
    simp only [decide_eq_true_eq] at hpr
    have hrS := List.mem_of_find?_eq_some hf
    have hrL : r ∈ LibraryManager.installedForMachine s md.machineName := by
      unfold LibraryManager.sortedInstalledForMachine at hrS
      exact (List.mem_insertionSort versionLE).mp hrS
    obtain ⟨sl', hsl'f, hsl'eq⟩ := List.mem_map.mp hrL
    obtain ⟨hsl'in, hsl'dec⟩ := List.mem_filter.mp hsl'f
    have hname' : sl'.metadata.machineName = md.machineName := by
      simpa using hsl'dec
    subst hsl'eq
    simp only [LibraryMetadata.fullName] at hpr
    have hline : sl'.libName = sl.libName := by
      unfold Slot.libName LibraryMetadata.libName
      rw [hname', hpr.1, hpr.2, hname, hmaj, hmin]
    have hsl'sl : sl' = sl := wellFormed_unique hw hsl'in hsl hline
    subst hsl'sl
    simp only [hf]
    simp [LibraryMetadata.fullName]

/-- C3: when a slot of the manifest's line is installed with a patchVersion
greater than or equal to the manifest's, installFromDirectory answers the
none outcome, performs no mutating storage operation (empty trace), and
leaves the storage state unchanged. -/
theorem installFromDirectory_none_noop (fm : FailureModel) (src : SourceDir)
    (md : LibraryMetadata) (restricted : Bool) (s : Storage) (sl : Slot)
    (hman : src.manifest = some md)
    (hw : WellFormed s) (hsl : sl ∈ s.slots)
    (hname : sl.metadata.machineName = md.machineName)
    (hmaj : sl.metadata.majorVersion = md.majorVersion)
    (hmin : sl.metadata.minorVersion = md.minorVersion)
    (hge : md.patchVersion ≤ sl.metadata.patchVersion) :
    LibraryManager.installFromDirectory fm src restricted s =
      ⟨.ok .noChange, s, []⟩ := by
  have hex : LibraryStorage.libraryExists s md.libName = true :=
    libraryExists_true_of_mem hsl (by
      unfold Slot.libName LibraryMetadata.libName
      rw [hname, hmaj, hmin])
  have hp : LibraryManager.isPatchedLibrary s md = none := by
    rw [isPatchedLibrary_eq hw hsl hname hmaj hmin]
    simp [Nat.not_lt.mpr hge]
  unfold LibraryManager.installFromDirectory
  simp [hman, hex, hp]

/-- A slot holding the A 1.0.0 manifest together with its script file. -/
def slotSimpleA100 : Slot := ⟨mdSimpleA100, [["a.js"]], false⟩

/-- Witness for C3: re-installing A 1.0.0 over an installed A 1.0.0 changes
nothing. -/
theorem installFromDirectory_none_noop_witness :
    LibraryManager.installFromDirectory FailureModel.none srcSimpleA100 false
        ⟨[slotSimpleA100]⟩ = ⟨.ok .noChange, ⟨[slotSimpleA100]⟩, []⟩ :=
  installFromDirectory_none_noop FailureModel.none srcSimpleA100 mdSimpleA100
    false ⟨[slotSimpleA100]⟩ slotSimpleA100 rfl
    (by unfold WellFormed; decide) (by decide) rfl rfl rfl (by decide)

/-- The addFile call is recorded in the trace whatever its outcome. -/
theorem addFile_trace (fm : FailureModel) (s : Storage) (tr : List Call)
    (lib : LibName) (f : LibPath) :
    (LibraryStorage.addFile fm s tr lib f).trace = tr ++ [Call.addFile lib f] := by
  unfold LibraryStorage.addFile
  split
  · rfl
  · split <;> rfl

/-- Equation of a succeeding metadata update. -/
theorem updateLibrary_storage_ok (fm : FailureModel) (s : Storage)
    (tr : List Call) (md : LibraryMetadata)
    (h : fm.updateLibraryFails = false)
    (hex : LibraryStorage.libraryExists s md.libName = true) :
    LibraryStorage.updateLibrary fm s tr md =
      ⟨.ok (), ⟨s.slots.map (fun sl =>
          if sl.libName = md.libName then ⟨md, sl.files, sl.restricted⟩ else sl)⟩,
        tr ++ [Call.updateLibrary md]⟩ := by
  unfold LibraryStorage.updateLibrary
  simp [h, hex]

/-- Equation of a metadata update rejected by the backend. -/
theorem updateLibrary_storage_fails (fm : FailureModel) (s : Storage)
    (tr : List Call) (md : LibraryMetadata)
    (h : fm.updateLibraryFails = true) :
    LibraryStorage.updateLibrary fm s tr md =
      ⟨.error (.storageFailure "updateLibrary"), s,
        tr ++ [Call.updateLibrary md]⟩ := by
  unfold LibraryStorage.updateLibrary
  simp [h]

/-- Equation of a metadata update against a missing line. -/
theorem updateLibrary_storage_missing (fm : FailureModel) (s : Storage)
    (tr : List Call) (md : LibraryMetadata)
    (h : fm.updateLibraryFails = false)
    (hex : LibraryStorage.libraryExists s md.libName = false) :
    LibraryStorage.updateLibrary fm s tr md =
      ⟨.error (.storageFailure "updateLibrary-not-installed"), s,
        tr ++ [Call.updateLibrary md]⟩ := by
  unfold LibraryStorage.updateLibrary
  simp [h, hex]

/-- Equation of a succeeding clearFiles. -/
theorem clearFiles_storage_ok (fm : FailureModel) (s : Storage)
    (tr : List Call) (lib : LibName)
    (h : fm.clearFilesFails = false)
    (hex : LibraryStorage.libraryExists s lib = true) :
    LibraryStorage.clearFiles fm s tr lib =
      ⟨.ok (), ⟨s.slots.map (fun sl =>
          if sl.libName = lib then ⟨sl.metadata, [], sl.restricted⟩ else sl)⟩,
        tr ++ [Call.clearFiles lib]⟩ := by
  unfold LibraryStorage.clearFiles
  simp [h, hex]

/-- Equation of a clearFiles rejected by the backend. -/
theorem clearFiles_storage_fails (fm : FailureModel) (s : Storage)
    (tr : List Call) (lib : LibName)
    (h : fm.clearFilesFails = true) :
    LibraryStorage.clearFiles fm s tr lib =
      ⟨.error (.storageFailure "clearFiles"), s, tr ++ [Call.clearFiles lib]⟩ := by
  unfold LibraryStorage.clearFiles
  simp [h]

/-- Equation of a clearFiles against a missing line. -/
theorem clearFiles_storage_missing (fm : FailureModel) (s : Storage)
    (tr : List Call) (lib : LibName)
    (h : fm.clearFilesFails = false)
    (hex : LibraryStorage.libraryExists s lib = false) :
    LibraryStorage.clearFiles fm s tr lib =
      ⟨.error (.storageFailure "clearFiles-not-installed"), s,
        tr ++ [Call.clearFiles lib]⟩ := by
  unfold LibraryStorage.clearFiles
  simp [h, hex]

/-- A resolved copy loop extends the trace with exactly one addFile call per
listed file other than the root manifest, in list order. -/
theorem copyFilesList_trace_of_ok (fm : FailureModel) (lib : LibName) :
    ∀ (fs : List LibPath) (s : Storage) (tr : List Call) (u : Unit),
      (LibraryManager.copyFilesList fm lib fs s tr).result = .ok u →
      (LibraryManager.copyFilesList fm lib fs s tr).trace =
        tr ++ (fs.filter (fun f => ¬ f = ["library.json"])).map
          (Call.addFile lib)
  | [], s, tr, u, _ => by
      simp [LibraryManager.copyFilesList]
  | f :: rest, s, tr, u, h => by
      unfold LibraryManager.copyFilesList at h ⊢
      by_cases hf : f = ["library.json"]
      · rw [if_pos hf] at h ⊢
        rw [copyFilesList_trace_of_ok fm lib rest s tr u h]
        simp [List.filter_cons, hf]
      · rw [if_neg hf] at h ⊢
        rcases ha : LibraryStorage.addFile fm s tr lib f with ⟨ar, s1, tr1⟩
        have htr1 : tr1 = tr ++ [Call.addFile lib f] := by
          have h2 := addFile_trace fm s tr lib f
          rw [ha] at h2
          exact h2
        simp only [ha] at h ⊢
        cases ar with
        | error e => simp at h
        | ok _ =>
            simp only [] at h ⊢
            rw [copyFilesList_trace_of_ok fm lib rest s1 tr1 u h, htr1]
            simp [List.filter_cons, hf]

/-- Result characterization of the manager's updateLibrary when deleteSlot
does not fail on its own: a resolved call has performed, in this order, the
metadata update, the clearing of the old files, and one stream copy per
globbed non-manifest source file; a rejected call has deleted the whole line
and recorded the delete call before rethrowing; a clearFiles failure and a
metadata-update failure each surface their own (original) storage error. -/
theorem updateLibraryM_spec (fm : FailureModel) (md : LibraryMetadata)
    (src : SourceDir) (s : Storage) (tr : List Call)
    (hdel : fm.deleteLibraryFails = false) :
    (∀ u, (LibraryManager.updateLibrary fm md src s tr).result = .ok u →
        (LibraryManager.updateLibrary fm md src s tr).trace =
          tr ++ [Call.updateLibrary md, Call.clearFiles md.libName] ++
            ((src.files.filter LibraryManager.globMatch).filter
                (fun f => ¬ f = ["library.json"])).map
              (Call.addFile md.libName)) ∧
    (∀ e, (LibraryManager.updateLibrary fm md src s tr).result = .error e →
        LibraryStorage.libraryExists
          (LibraryManager.updateLibrary fm md src s tr).storage md.libName = false ∧
        Call.deleteLibrary md.libName ∈
          (LibraryManager.updateLibrary fm md src s tr).trace) ∧
    (fm.updateLibraryFails = false → fm.clearFilesFails = true →
        LibraryStorage.libraryExists s md.libName = true →
        (LibraryManager.updateLibrary fm md src s tr).result =
          .error (.storageFailure "clearFiles")) ∧
    (fm.updateLibraryFails = true →
        (LibraryManager.updateLibrary fm md src s tr).result =
          .error (.storageFailure "updateLibrary")) := by
  unfold LibraryManager.updateLibrary
  cases hup : fm.updateLibraryFails with
  | true =>
      simp only [updateLibrary_storage_fails, hup]
      simp only [rollbackRethrow_delete_ok, hdel]
      refine ⟨fun u hu => by simp at hu,
        fun e he => ⟨libraryExists_delete_self _ _, by simp⟩,
        fun h1 h2 h3 => by simp_all,
        fun h4 => by simp⟩
  | false =>
      cases hex : LibraryStorage.libraryExists s md.libName with
      | false =>
          simp only [updateLibrary_storage_missing, hup, hex]
          simp only [rollbackRethrow_delete_ok, hdel]
          refine ⟨fun u hu => by simp at hu,
            fun e he => ⟨libraryExists_delete_self _ _, by simp⟩,
            fun h1 h2 h3 => by simp_all,
            fun h4 => by simp_all⟩
      | true =>
          simp only [updateLibrary_storage_ok, hup, hex]
          generalize hs1 : (⟨s.slots.map (fun sl =>
              if sl.libName = md.libName then (⟨md, sl.files, sl.restricted⟩ : Slot)
              else sl)⟩ : Storage) = s1
          cases hcl : fm.clearFilesFails with
          | true =>
              simp only [clearFiles_storage_fails, hcl]
              simp only [rollbackRethrow_delete_ok, hdel]
              refine ⟨fun u hu => by simp at hu,
                fun e he => ⟨libraryExists_delete_self _ _, by simp⟩,
                fun h1 h2 h3 => by simp,
                fun h4 => by simp_all⟩
          | false =>
              cases hex1 : LibraryStorage.libraryExists s1 md.libName with
              | false =>
                  simp only [clearFiles_storage_missing, hcl, hex1]
                  simp only [rollbackRethrow_delete_ok, hdel]
                  refine ⟨fun u hu => by simp at hu,
                    fun e he => ⟨libraryExists_delete_self _ _, by simp⟩,
                    fun h1 h2 h3 => by simp_all,
                    fun h4 => by simp_all⟩
              | true =>
                  simp only [clearFiles_storage_ok, hcl, hex1]
                  generalize hs2 : (⟨s1.slots.map (fun sl =>
                      if sl.libName = md.libName then
                        (⟨sl.metadata, [], sl.restricted⟩ : Slot)
                      else sl)⟩ : Storage) = s2
                  rcases hcp : LibraryManager.copyLibraryFiles fm s2
                      ((tr ++ [Call.updateLibrary md]) ++
                        [Call.clearFiles md.libName]) src md.libName
                    with ⟨cr, s3, tr3⟩
                  cases cr with
                  | error e' =>
                      simp only [hcp]
                      simp only [rollbackRethrow_delete_ok, hdel]
                      refine ⟨fun u hu => by simp at hu,
                        fun e he => ⟨libraryExists_delete_self _ _, by simp⟩,
                        fun h1 h2 h3 => by simp_all,
                        fun h4 => by simp_all⟩
                  | ok u' =>
                      simp only [hcp]
                      cases hcc : LibraryManager.checkConsistency s3 md.libName with
                      | error e' =>
                          simp only [rollbackRethrow_delete_ok, hdel]
                          refine ⟨fun u hu => by simp at hu,
                            fun e he => ⟨libraryExists_delete_self _ _, by simp⟩,
                            fun h1 h2 h3 => by simp_all,
                            fun h4 => by simp_all⟩
                      | ok b =>
                          refine ⟨fun u hu => ?_, fun e he => by simp at he,
                            fun h1 h2 h3 => by simp_all,
                            fun h4 => by simp_all⟩
                          unfold LibraryManager.copyLibraryFiles at hcp
                          have htr := copyFilesList_trace_of_ok fm md.libName
                            (src.files.filter LibraryManager.globMatch) s2
                            ((tr ++ [Call.updateLibrary md]) ++
                              [Call.clearFiles md.libName]) u' (by rw [hcp])
                          rw [hcp] at htr
                          simp only [] at htr
                          simp [htr, List.append_assoc]

/-- C2: for a patch update (a well-formed storage holds a slot of the
manifest's line with strictly smaller patchVersion), a resolved
installFromDirectory returns the patch outcome carrying the new and the old
identity and its trace shows, in this order, the metadata update, the
clearing of the old files and one stream copy per globbed non-manifest
source file (the consistency check adds no mutating call); a rejected call
has deleted the whole slot and recorded the delete before rethrowing; and an
injected clearFiles failure surfaces as its own (original) error. -/
theorem installFromDirectory_patch_spec (fm : FailureModel) (src : SourceDir)
    (md : LibraryMetadata) (restricted : Bool) (s : Storage) (sl : Slot)
    (hman : src.manifest = some md)
    (hw : WellFormed s) (hsl : sl ∈ s.slots)
    (hname : sl.metadata.machineName = md.machineName)
    (hmaj : sl.metadata.majorVersion = md.majorVersion)
    (hmin : sl.metadata.minorVersion = md.minorVersion)
    (hpatch : sl.metadata.patchVersion < md.patchVersion)
    (hdel : fm.deleteLibraryFails = false) :
    (∀ v, (LibraryManager.installFromDirectory fm src restricted s).result = .ok v →
        v = .patched md.fullName sl.metadata.fullName ∧
        (LibraryManager.installFromDirectory fm src restricted s).trace =
          [Call.updateLibrary md, Call.clearFiles md.libName] ++
            ((src.files.filter LibraryManager.globMatch).filter
                (fun f => ¬ f = ["library.json"])).map
              (Call.addFile md.libName)) ∧
    (∀ e, (LibraryManager.installFromDirectory fm src restricted s).result = .error e →
        LibraryStorage.libraryExists
          (LibraryManager.installFromDirectory fm src restricted s).storage
          md.libName = false ∧
        Call.deleteLibrary md.libName ∈
          (LibraryManager.installFromDirectory fm src restricted s).trace) ∧
    (fm.updateLibraryFails = false → fm.clearFilesFails = true →
        (LibraryManager.installFromDirectory fm src restricted s).result =
          .error (.storageFailure "clearFiles")) := by
  have hex : LibraryStorage.libraryExists s md.libName = true :=
    libraryExists_true_of_mem hsl (by
      unfold Slot.libName LibraryMetadata.libName
      rw [hname, hmaj, hmin])
  have hp : LibraryManager.isPatchedLibrary s md = some sl.metadata.fullName := by
    rw [isPatchedLibrary_eq hw hsl hname hmaj hmin]
    simp [hpatch]
  have hspec := updateLibraryM_spec fm md src s [] hdel
  unfold LibraryManager.installFromDirectory
  simp only [hman, hex, hp, eq_self_iff_true, if_true]
  rcases hu : LibraryManager.updateLibrary fm md src s [] with ⟨ur, s1, tr1⟩
  rw [hu] at hspec
  simp only [] at hspec
  cases ur with
  | error e' =>
      simp only [hu]
      refine ⟨fun v hv => by simp at hv, fun e he => hspec.2.1 e' rfl,
        fun h1 h2 => ?_⟩
      have h3 := hspec.2.2.1 h1 h2 hex
      simpa using h3
  | ok u' =>
      simp only [hu]
      refine ⟨fun v hv => ⟨by simpa using hv.symm, ?_⟩,
        fun e he => by simp at he, fun h1 h2 => ?_⟩
      · have ht := hspec.1 u' rfl
        simpa using ht
      · have h3 := hspec.2.2.1 h1 h2 hex
        simp at h3

/-- The manifest of A 1.0.5, declaring no preloaded files. -/
def mdSimpleA105 : LibraryMetadata := ⟨"A", 1, 0, 5, true, "A", [], []⟩

/-- A source directory holding the A 1.0.5 manifest and one script file. -/
def srcSimpleA105 : SourceDir := ⟨some mdSimpleA105, [["a.js"], ["library.json"]]⟩

/-- Witness for C2 at a concrete patch update of A 1.0.0 to A 1.0.5. -/
theorem installFromDirectory_patch_spec_witness :
    (∀ v, (LibraryManager.installFromDirectory FailureModel.none srcSimpleA105
        false ⟨[slotSimpleA100]⟩).result = .ok v →
        v = .patched mdSimpleA105.fullName slotSimpleA100.metadata.fullName ∧
        (LibraryManager.installFromDirectory FailureModel.none srcSimpleA105
          false ⟨[slotSimpleA100]⟩).trace =
          [Call.updateLibrary mdSimpleA105, Call.clearFiles mdSimpleA105.libName] ++
            ((srcSimpleA105.files.filter LibraryManager.globMatch).filter
                (fun f => ¬ f = ["library.json"])).map
              (Call.addFile mdSimpleA105.libName)) ∧
    (∀ e, (LibraryManager.installFromDirectory FailureModel.none srcSimpleA105
        false ⟨[slotSimpleA100]⟩).result = .error e →
        LibraryStorage.libraryExists
          (LibraryManager.installFromDirectory FailureModel.none srcSimpleA105
            false ⟨[slotSimpleA100]⟩).storage mdSimpleA105.libName = false ∧
        Call.deleteLibrary mdSimpleA105.libName ∈
          (LibraryManager.installFromDirectory FailureModel.none srcSimpleA105
            false ⟨[slotSimpleA100]⟩).trace) ∧
    (FailureModel.none.updateLibraryFails = false →
        FailureModel.none.clearFilesFails = true →
        (LibraryManager.installFromDirectory FailureModel.none srcSimpleA105
          false ⟨[slotSimpleA100]⟩).result =
          .error (.storageFailure "clearFiles")) :=
  installFromDirectory_patch_spec FailureModel.none srcSimpleA105 mdSimpleA105
    false ⟨[slotSimpleA100]⟩ slotSimpleA100 rfl
    (by unfold WellFormed; decide) (by decide) rfl rfl rfl (by decide) rfl

/-- C10: during a patch update, a failure of the metadata-update step itself
still deletes the whole slot and rethrows that step's error, leaving the
previously installed library uninstalled. -/
theorem installFromDirectory_patch_metadata_fail (fm : FailureModel)
    (src : SourceDir) (md : LibraryMetadata) (restricted : Bool) (s : Storage)
    (sl : Slot)
    (hman : src.manifest = some md)
    (hw : WellFormed s) (hsl : sl ∈ s.slots)
    (hname : sl.metadata.machineName = md.machineName)
    (hmaj : sl.metadata.majorVersion = md.majorVersion)
    (hmin : sl.metadata.minorVersion = md.minorVersion)
    (hpatch : sl.metadata.patchVersion < md.patchVersion)
    (hup : fm.updateLibraryFails = true)
    (hdel : fm.deleteLibraryFails = false) :
    (LibraryManager.installFromDirectory fm src restricted s).result =
      .error (.storageFailure "updateLibrary") ∧
    LibraryStorage.libraryExists
      (LibraryManager.installFromDirectory fm src restricted s).storage
      md.libName = false ∧
    Call.deleteLibrary md.libName ∈
      (LibraryManager.installFromDirectory fm src restricted s).trace := by
  have hex : LibraryStorage.libraryExists s md.libName = true :=
    libraryExists_true_of_mem hsl (by
      unfold Slot.libName LibraryMetadata.libName
      rw [hname, hmaj, hmin])
  have hp : LibraryManager.isPatchedLibrary s md = some sl.metadata.fullName := by
    rw [isPatchedLibrary_eq hw hsl hname hmaj hmin]
    simp [hpatch]
  have hspec := updateLibraryM_spec fm md src s [] hdel
  unfold LibraryManager.installFromDirectory
  simp only [hman, hex, hp, eq_self_iff_true, if_true]
  rcases hu : LibraryManager.updateLibrary fm md src s [] with ⟨ur, s1, tr1⟩
  rw [hu] at hspec
  simp only [] at hspec
  have h4 := hspec.2.2.2 hup
  cases ur with
  | error e' =>
      have he' : e' = .storageFailure "updateLibrary" := by simpa using h4
      subst he'
      simp only [hu]
      exact ⟨trivial, (hspec.2.1 _ rfl).1, (hspec.2.1 _ rfl).2⟩
  | ok u' =>
      simp at h4

/-- The failure model in which only the metadata update rejects. -/
def fmUpdateFails : FailureModel := ⟨false, true, false, fun _ => false, false⟩

/-- Witness for C10 at a concrete patch update whose metadata update
rejects. -/
theorem installFromDirectory_patch_metadata_fail_witness :
    (LibraryManager.installFromDirectory fmUpdateFails srcSimpleA105 false
        ⟨[slotSimpleA100]⟩).result = .error (.storageFailure "updateLibrary") ∧
    LibraryStorage.libraryExists
      (LibraryManager.installFromDirectory fmUpdateFails srcSimpleA105 false
        ⟨[slotSimpleA100]⟩).storage mdSimpleA105.libName = false ∧
    Call.deleteLibrary mdSimpleA105.libName ∈
      (LibraryManager.installFromDirectory fmUpdateFails srcSimpleA105 false
        ⟨[slotSimpleA100]⟩).trace :=
  installFromDirectory_patch_metadata_fail fmUpdateFails srcSimpleA105
    mdSimpleA105 false ⟨[slotSimpleA100]⟩ slotSimpleA100 rfl
    (by unfold WellFormed; decide) (by decide) rfl rfl rfl (by decide) rfl rfl

/-- A manifest declaring one preloadedJs path and one preloadedCss path,
both of which will be absent from storage. -/
def mdMissingBoth : LibraryMetadata :=
  ⟨"A", 1, 0, 0, true, "A", [["missing.js"]], [["missing.css"]]⟩

/-- C5 counterexample: with a preloadedJs path and a preloadedCss path both
missing, the consistency check fails carrying only the missing preloadedJs
path; the missing preloadedCss path is absent from the carried list, so the
error does not hold the complete list over both declared lists. -/
theorem checkConsistency_claim_counterexample :
    mdMissingBoth.preloadedCss = [["missing.css"]] ∧
    LibraryStorage.fileExists ⟨[⟨mdMissingBoth, [], false⟩]⟩
      mdMissingBoth.libName ["missing.css"] = false ∧
    LibraryManager.checkConsistency ⟨[⟨mdMissingBoth, [], false⟩]⟩
        mdMissingBoth.libName =
      .error (.h5pError "library-consistency-check-file-missing"
        [["missing.js"]]) := by
  decide

/-- C5 (amended): when some declared preloadedJs path is missing, the
consistency check fails with FileMissing carrying every missing preloadedJs
path (it does not stop at the first missing one), but only preloadedJs
paths: the preloadedCss list is checked, and its missing paths carried, only
when every preloadedJs path is present. -/
theorem checkConsistency_missing_js (s : Storage) (lib : LibName)
    (m : LibraryMetadata)
    (hex : LibraryStorage.libraryExists s lib = true)
    (hm : LibraryStorage.getLibrary s lib = .ok m)
    (f : LibPath) (hf : f ∈ m.preloadedJs)
    (hmiss : LibraryStorage.fileExists s lib f = false) :
    ∃ l, LibraryManager.checkConsistency s lib =
        .error (.h5pError "library-consistency-check-file-missing" l) ∧
      (∀ g ∈ m.preloadedJs,
          LibraryStorage.fileExists s lib g = false → g ∈ l) ∧
      (∀ g ∈ l, g ∈ m.preloadedJs ∧
          LibraryStorage.fileExists s lib g = false) := by
  unfold LibraryManager.checkConsistency
  rw [if_neg (show ¬¬(LibraryStorage.libraryExists s lib = true) by simp [hex])]
  simp only [hm]
  unfold LibraryManager.checkFiles
  set l := m.preloadedJs.filter
    (fun file => ¬ LibraryStorage.fileExists s lib file) with hl
  have hfl : f ∈ l := List.mem_filter.mpr ⟨hf, by simp [hmiss]⟩
  have hne : l.length > 0 := List.length_pos.mpr (List.ne_nil_of_mem hfl)
  rw [if_pos hne]
  refine ⟨l, rfl, fun g hg hgmiss => ?_, fun g hg => ?_⟩
  · exact List.mem_filter.mpr ⟨hg, by simp [hgmiss]⟩
  · have h2 := List.mem_filter.mp hg
    exact ⟨h2.1, by simpa using h2.2⟩

/-- Witness for the amended C5 at a concrete storage missing both a
preloadedJs and a preloadedCss file. -/
theorem checkConsistency_missing_js_witness :
    ∃ l, LibraryManager.checkConsistency ⟨[⟨mdMissingBoth, [], false⟩]⟩
        mdMissingBoth.libName =
        .error (.h5pError "library-consistency-check-file-missing" l) ∧
      (∀ g ∈ mdMissingBoth.preloadedJs,
          LibraryStorage.fileExists ⟨[⟨mdMissingBoth, [], false⟩]⟩
            mdMissingBoth.libName g = false → g ∈ l) ∧
      (∀ g ∈ l, g ∈ mdMissingBoth.preloadedJs ∧
          LibraryStorage.fileExists ⟨[⟨mdMissingBoth, [], false⟩]⟩
            mdMissingBoth.libName g = false) :=
  checkConsistency_missing_js ⟨[⟨mdMissingBoth, [], false⟩]⟩
    mdMissingBoth.libName mdMissingBoth rfl rfl ["missing.js"] (by decide) rfl

/-- The failure model in which streaming the file b.js and deleting a slot
both reject. -/
def fmCopyDeleteFail : FailureModel :=
  ⟨false, false, false, fun p => decide (p = ["b.js"]), true⟩

/-- A source directory whose b.js copy will reject. -/
def srcWithBJs : SourceDir := ⟨some mdSimpleA100, [["b.js"], ["library.json"]]⟩

/-- C6 counterexample: the copy step fails (addFile of b.js rejects) and the
rollback deleteSlot cleanup also fails; the error surfaced by
installFromDirectory is only the cleanup error — the original copy error is
silently dropped, not chained or aggregated. -/
theorem rollback_error_replaces_original_counterexample :
    fmCopyDeleteFail.addFileFails ["b.js"] = true ∧
    (LibraryManager.installFromDirectory fmCopyDeleteFail srcWithBJs false
        ⟨[]⟩).result = .error (.storageFailure "deleteLibrary") := by
  decide

/-- C6 (amended): when the rollback deleteSlot cleanup itself fails, only
the cleanup error is surfaced and the original error is dropped; the
original error is rethrown only when the cleanup succeeds. -/
theorem rollbackRethrow_error_surfacing {α : Type} (fm : FailureModel)
    (lib : LibName) (e : Err) (s : Storage) (tr : List Call) :
    (fm.deleteLibraryFails = true →
        (LibraryManager.rollbackRethrow fm lib e s tr : MRes α).result =
          .error (.storageFailure "deleteLibrary")) ∧
    (fm.deleteLibraryFails = false →
        (LibraryManager.rollbackRethrow fm lib e s tr : MRes α).result =
          .error e) := by
  constructor
  · intro h
    rw [rollbackRethrow_delete_fails fm lib e s tr h]
  · intro h
    rw [rollbackRethrow_delete_ok fm lib e s tr h]

/-- Witness for the amended C6 at a concrete failing cleanup. -/
theorem rollbackRethrow_error_surfacing_witness :
    (LibraryManager.rollbackRethrow fmCopyDeleteFail ⟨"A", 1, 0⟩
        (.storageFailure "addFile") ⟨[]⟩ [] : MRes Unit).result =
      .error (.storageFailure "deleteLibrary") :=
  (rollbackRethrow_error_surfacing fmCopyDeleteFail ⟨"A", 1, 0⟩
    (.storageFailure "addFile") ⟨[]⟩ []).1 rfl

/-- Pointwise-equal predicates find the same first element. -/
theorem findCongr {α : Type} (p q : α → Bool) (h : ∀ a, p a = q a) :
    ∀ l : List α, l.find? p = l.find? q
  | [] => rfl
  | a :: l => by
      cases hqa : q a with
      | false =>
          rw [List.find?_cons_of_neg _ (by simp [h a, hqa]),
            List.find?_cons_of_neg _ (by simp [hqa])]
          exact findCongr p q h l
      | true =>
          rw [List.find?_cons_of_pos _ (by simp [h a, hqa]),
            List.find?_cons_of_pos _ (by simp [hqa])]

/-- Slot lookup commutes with mapping a line-preserving function over the
slots. -/
theorem findSlot_map (slots : List Slot) (lib : LibName) (g : Slot → Slot)
    (h : ∀ sl, (g sl).libName = sl.libName) :
    LibraryStorage.findSlot ⟨slots.map g⟩ lib =
      (LibraryStorage.findSlot ⟨slots⟩ lib).map g := by
  unfold LibraryStorage.findSlot
  rw [List.find?_map]
  rw [findCongr ((fun sl => decide (sl.libName = lib)) ∘ g)
    (fun sl => decide (sl.libName = lib)) (fun sl => by simp [Function.comp, h sl])
    slots]

/-- The slot-update function used by addFile. -/
def addFileUpd (lib : LibName) (f : LibPath) (sl : Slot) : Slot :=
  if sl.libName = lib then
    ⟨sl.metadata, if f ∈ sl.files then sl.files else sl.files ++ [f],
      sl.restricted⟩
  else sl

/-- The addFile slot update preserves every slot's line. -/
theorem addFileUpd_libName (lib : LibName) (f : LibPath) (sl : Slot) :
    (addFileUpd lib f sl).libName = sl.libName := by
  unfold addFileUpd
  split <;> rfl

/-- Equation of a succeeding addFile into an existing slot. -/
theorem addFile_storage_ok (fm : FailureModel) (s : Storage) (tr : List Call)
    (lib : LibName) (f : LibPath)
    (hf : fm.addFileFails f = false)
    (hex : LibraryStorage.libraryExists s lib = true) :
    LibraryStorage.addFile fm s tr lib f =
      ⟨.ok (), ⟨s.slots.map (addFileUpd lib f)⟩, tr ++ [Call.addFile lib f]⟩ := by
  unfold LibraryStorage.addFile addFileUpd
  simp [hf, hex]

/-- addFile changes no line's existence. -/
theorem libraryExists_addFile_map (s : Storage) (lib lib' : LibName)
    (f : LibPath) :
    LibraryStorage.libraryExists ⟨s.slots.map (addFileUpd lib f)⟩ lib' =
      LibraryStorage.libraryExists s lib' := by
  obtain ⟨slots⟩ := s
  unfold LibraryStorage.libraryExists
  dsimp only
  rw [findSlot_map slots lib' (addFileUpd lib f) (addFileUpd_libName lib f)]
  cases LibraryStorage.findSlot ⟨slots⟩ lib' <;> rfl

/-- File membership after addFile: the added path is present, every other
path's presence is unchanged. -/
theorem fileExists_addFile_map (s : Storage) (lib : LibName) (f g : LibPath)
    (hex : LibraryStorage.libraryExists s lib = true) :
    LibraryStorage.fileExists ⟨s.slots.map (addFileUpd lib f)⟩ lib g =
      (LibraryStorage.fileExists s lib g || decide (g = f)) := by
  obtain ⟨slots⟩ := s
  unfold LibraryStorage.fileExists
  dsimp only
  rw [findSlot_map slots lib (addFileUpd lib f) (addFileUpd_libName lib f)]
  rcases hfs : LibraryStorage.findSlot ⟨slots⟩ lib with _ | sl
  · exfalso
    unfold LibraryStorage.libraryExists at hex
    rw [hfs] at hex
    simp at hex
  · have hsl : sl.libName = lib := by
      unfold LibraryStorage.findSlot at hfs
      have := List.find?_some hfs
      simpa using this
    dsimp only [Option.map, addFileUpd]
    rw [if_pos hsl]
    by_cases hmem : f ∈ sl.files
    · rw [if_pos hmem]
      by_cases hg : g = f <;> by_cases hgm : g ∈ sl.files <;> simp_all
    · rw [if_neg hmem]
      by_cases hg : g = f <;> by_cases hgm : g ∈ sl.files <;>
        simp_all [List.mem_append]

/-- Characterization of the copy loop under no addFile failure: it resolves,
the target line still exists, and a file is present afterwards exactly when
it was present before or is listed and is not the root manifest. -/
theorem copyFilesList_files (fm : FailureModel) (lib : LibName)
    (hnf : ∀ f, fm.addFileFails f = false) :
    ∀ (fs : List LibPath) (s : Storage) (tr : List Call),
      LibraryStorage.libraryExists s lib = true →
      (LibraryManager.copyFilesList fm lib fs s tr).result = .ok () ∧
      LibraryStorage.libraryExists
        (LibraryManager.copyFilesList fm lib fs s tr).storage lib = true ∧
      ∀ g, LibraryStorage.fileExists
          (LibraryManager.copyFilesList fm lib fs s tr).storage lib g =
        (LibraryStorage.fileExists s lib g ||
          (decide (g ∈ fs) && !decide (g = ["library.json"])))
  | [], s, tr, hex => by
      refine ⟨rfl, hex, fun g => ?_⟩
      simp [LibraryManager.copyFilesList]
  | f :: rest, s, tr, hex => by
      unfold LibraryManager.copyFilesList
      by_cases hf : f = ["library.json"]
      · rw [if_pos hf]
        obtain ⟨h1, h2, h3⟩ := copyFilesList_files fm lib hnf rest s tr hex
        refine ⟨h1, h2, fun g => ?_⟩
        rw [h3 g]
        by_cases hg3 : g = f <;> by_cases hg4 : g ∈ rest <;>
          simp_all [List.mem_cons]
      · rw [if_neg hf]
        rw [addFile_storage_ok fm s tr lib f (hnf f) hex]
        have hex1 : LibraryStorage.libraryExists
            ⟨s.slots.map (addFileUpd lib f)⟩ lib = true := by
          rw [libraryExists_addFile_map s lib lib f]
          exact hex
        obtain ⟨h1, h2, h3⟩ := copyFilesList_files fm lib hnf rest
          ⟨s.slots.map (addFileUpd lib f)⟩ (tr ++ [Call.addFile lib f]) hex1
        refine ⟨h1, h2, fun g => ?_⟩
        rw [h3 g, fileExists_addFile_map s lib f g hex]
        by_cases hg2 : g = ["library.json"] <;> by_cases hg3 : g = f <;>
          by_cases hg4 : g ∈ rest <;> simp_all [List.mem_cons]

/-- Membership in a glob-filtered listing as a boolean. -/
theorem mem_filter_globMatch (l : List LibPath) (g : LibPath) :
    decide (g ∈ l.filter LibraryManager.globMatch) =
      (decide (g ∈ l) && LibraryManager.globMatch g) := by
  by_cases hl : g ∈ l <;> by_cases hg : LibraryManager.globMatch g <;>
    simp_all [List.mem_filter]

/-- C9 counterexample: a file whose name holds no dot (README) is not
matched by the glob pattern and is silently skipped by the install copy,
although it is not the root manifest file; only a.js is stored. -/
theorem copyLibraryFiles_claim_counterexample :
    (["README"] : LibPath) ≠ ["library.json"] ∧
    (LibraryManager.installFromDirectory FailureModel.none
        ⟨some mdSimpleA100, [["README"], ["a.js"], ["library.json"]]⟩ false
        ⟨[]⟩).storage = ⟨[⟨mdSimpleA100, [["a.js"]], false⟩]⟩ := by
  decide

/-- C9 (amended): under no storage failure and an existing target slot, the
copy resolves and afterwards a file is stored exactly when it was stored
before or is a source file matched by the glob pattern (basename containing
a dot, no hidden component) other than the root manifest library.json —
extensionless or hidden source files are skipped; and the stored file set is
invariant under permutation of the source file listing. -/
theorem copyLibraryFiles_files_spec (fm : FailureModel) (src : SourceDir)
    (lib : LibName) (s : Storage) (tr : List Call)
    (hnf : ∀ f, fm.addFileFails f = false)
    (hex : LibraryStorage.libraryExists s lib = true) :
    (LibraryManager.copyLibraryFiles fm s tr src lib).result = .ok () ∧
    (∀ g, LibraryStorage.fileExists
        (LibraryManager.copyLibraryFiles fm s tr src lib).storage lib g =
      (LibraryStorage.fileExists s lib g ||
        (decide (g ∈ src.files) && LibraryManager.globMatch g &&
          !decide (g = ["library.json"])))) ∧
    (∀ src' : SourceDir, src'.files.Perm src.files → ∀ g,
        LibraryStorage.fileExists
          (LibraryManager.copyLibraryFiles fm s tr src' lib).storage lib g =
        LibraryStorage.fileExists
          (LibraryManager.copyLibraryFiles fm s tr src lib).storage lib g) := by
  obtain ⟨h1, h2, h3⟩ := copyFilesList_files fm lib hnf
    (src.files.filter LibraryManager.globMatch) s tr hex
  refine ⟨h1, fun g => ?_, fun src' hperm g => ?_⟩
  · unfold LibraryManager.copyLibraryFiles
    rw [h3 g, mem_filter_globMatch]
  · obtain ⟨h1', h2', h3'⟩ := copyFilesList_files fm lib hnf
      (src'.files.filter LibraryManager.globMatch) s tr hex
    unfold LibraryManager.copyLibraryFiles
    rw [h3 g, h3' g]
    rw [show decide (g ∈ src'.files.filter LibraryManager.globMatch) =
        decide (g ∈ src.files.filter LibraryManager.globMatch) from
      decide_eq_decide.mpr
        (hperm.filter LibraryManager.globMatch).mem_iff]

/-- Witness for the amended C9 at a concrete source directory holding an
extensionless file. -/
theorem copyLibraryFiles_files_spec_witness :
    (LibraryManager.copyLibraryFiles FailureModel.none
        ⟨[⟨mdSimpleA100, [], false⟩]⟩ []
        ⟨some mdSimpleA100, [["README"], ["a.js"], ["library.json"]]⟩
        mdSimpleA100.libName).result = .ok () ∧
    (∀ g, LibraryStorage.fileExists
        (LibraryManager.copyLibraryFiles FailureModel.none
          ⟨[⟨mdSimpleA100, [], false⟩]⟩ []
          ⟨some mdSimpleA100, [["README"], ["a.js"], ["library.json"]]⟩
          mdSimpleA100.libName).storage mdSimpleA100.libName g =
      (LibraryStorage.fileExists ⟨[⟨mdSimpleA100, [], false⟩]⟩
          mdSimpleA100.libName g ||
        (decide (g ∈ ([["README"], ["a.js"], ["library.json"]] : List LibPath)) &&
          LibraryManager.globMatch g && !decide (g = ["library.json"])))) ∧
    (∀ src' : SourceDir,
        src'.files.Perm [["README"], ["a.js"], ["library.json"]] → ∀ g,
        LibraryStorage.fileExists
          (LibraryManager.copyLibraryFiles FailureModel.none
            ⟨[⟨mdSimpleA100, [], false⟩]⟩ [] src'
            mdSimpleA100.libName).storage mdSimpleA100.libName g =
        LibraryStorage.fileExists
          (LibraryManager.copyLibraryFiles FailureModel.none
            ⟨[⟨mdSimpleA100, [], false⟩]⟩ []
            ⟨some mdSimpleA100, [["README"], ["a.js"], ["library.json"]]⟩
            mdSimpleA100.libName).storage mdSimpleA100.libName g) :=
  copyLibraryFiles_files_spec FailureModel.none
    ⟨some mdSimpleA100, [["README"], ["a.js"], ["library.json"]]⟩
    mdSimpleA100.libName ⟨[⟨mdSimpleA100, [], false⟩]⟩ []
    (fun _ => rfl) rfl
